import Mathlib

/-!
Verification of the signal-normalization core of a Telegram signal-forwarding
bot (`utils/llm_processor.py` and `handlers/forwarder.py`).

Strings are modelled as `List Char` (Lean 4.14's `String` is a wrapper around
`List Char`, so `String`-level wrappers are provided where convenient).
Python's `float()` / f-string formatting of the numeric tokens scanned by
`re.findall(r'[\d.]+', ...)` is modelled exactly as decimal arithmetic
(`DecNum` below): a scanned token is a string of digits and dots, and for
tokens of at most 15 significant digits whose value lies in the range where
`repr` of a Python float uses positional (non-exponent) notation, CPython's
shortest round-trip float `repr` prints exactly the canonical decimal form
computed here.  All concrete inputs appearing in the claims are well inside
that regime.  Python `str.strip()` / `str.lower()` are modelled on the ASCII
whitespace / letters that occur in the relevant texts.
-/

/-- Characters treated as whitespace by `str.strip()` (ASCII fragment). -/
def isPyWs (c : Char) : Bool := c.isWhitespace

/-- Characters matched by the number-scanning pattern `[\d.]+`. -/
def isNumChar (c : Char) : Bool := c.isDigit || c = '.'

/-- Python `s.strip()`: remove leading and trailing whitespace. -/
def pyStrip (l : List Char) : List Char :=
  ((l.dropWhile isPyWs).reverse.dropWhile isPyWs).reverse

/-- Python `s.lower()` (ASCII fragment). -/
def pyLower (l : List Char) : List Char := l.map Char.toLower

/-- Python `s.split('\n')`: split at every newline, keeping empty pieces. -/
def splitNL : List Char → List (List Char)
  | [] => [[]]
  | c :: cs =>
    if c = '\n' then [] :: splitNL cs
    else
      match splitNL cs with
      | [] => [[c]]
      | l :: ls => (c :: l) :: ls

/-- Python `'\n'.join(ls)`. -/
def joinNL : List (List Char) → List Char
  | [] => []
  | [l] => l
  | l :: ls => l ++ '\n' :: joinNL ls

/-- `nee in hay` (Python substring test). -/
def hasInfixL (nee : List Char) : List Char → Bool
  | [] => nee.isEmpty
  | c :: t => nee.isPrefixOf (c :: t) || hasInfixL nee t

theorem splitNL_ne_nil (s : List Char) : splitNL s ≠ [] := by
  induction s with
  | nil => simp [splitNL]
  | cons c cs ih =>
    simp only [splitNL]
    split
    · simp
    · cases h : splitNL cs with
      | nil => simp
      | cons l ls => simp

theorem joinNL_splitNL (s : List Char) : joinNL (splitNL s) = s := by
  induction s with
  | nil => rfl
  | cons c cs ih =>
    simp only [splitNL]
    split
    · rename_i hc
      cases h : splitNL cs with
      | nil => exact absurd h (splitNL_ne_nil cs)
      | cons l ls =>
        subst hc
        rw [h] at ih
        simp only [joinNL]
        rw [← ih]
        simp
    · cases h : splitNL cs with
      | nil => exact absurd h (splitNL_ne_nil cs)
      | cons l ls =>
        rw [h] at ih
        cases ls with
        | nil => simp only [joinNL] at ih ⊢; rw [ih]
        | cons l2 ls2 => simp only [joinNL] at ih ⊢; rw [List.cons_append, ih]

theorem splitNL_no_nl {s : List Char} (h : '\n' ∉ s) : splitNL s = [s] := by
  induction s with
  | nil => rfl
  | cons c cs ih =>
    have hc : ¬ c = '\n' := fun hc => h (hc ▸ List.mem_cons_self c cs)
    have hcs : '\n' ∉ cs := fun hm => h (List.mem_cons_of_mem c hm)
    simp only [splitNL, if_neg hc, ih hcs]

theorem splitNL_append_nl {l t : List Char} (h : '\n' ∉ l) :
    splitNL (l ++ '\n' :: t) = l :: splitNL t := by
  induction l with
  | nil => simp [splitNL]
  | cons c cs ih =>
    have hc : ¬ c = '\n' := fun hc => h (hc ▸ List.mem_cons_self c cs)
    have hcs : '\n' ∉ cs := fun hm => h (List.mem_cons_of_mem c hm)
    simp only [List.cons_append, List.append_eq, splitNL, if_neg hc, ih hcs]

theorem splitNL_joinNL {ls : List (List Char)} (h1 : ls ≠ [])
    (h2 : ∀ l ∈ ls, '\n' ∉ l) : splitNL (joinNL ls) = ls := by
  induction ls with
  | nil => exact absurd rfl h1
  | cons l ls ih =>
    cases ls with
    | nil => exact splitNL_no_nl (h2 l (List.mem_cons_self l []))
    | cons l2 ls2 =>
      have hl : '\n' ∉ l := h2 l (List.mem_cons_self _ _)
      simp only [joinNL, splitNL_append_nl hl]
      rw [ih (by simp) (fun x hx => h2 x (List.mem_cons_of_mem l hx))]

theorem mem_splitNL_not_nl {s l : List Char} (h : l ∈ splitNL s) : '\n' ∉ l := by
  induction s generalizing l with
  | nil =>
    simp only [splitNL, List.mem_singleton] at h
    subst h; simp
  | cons c cs ih =>
    simp only [splitNL] at h
    split at h
    · rcases List.mem_cons.mp h with h | h
      · subst h; simp
      · exact ih h
    · rename_i hc
      cases hsp : splitNL cs with
      | nil => exact absurd hsp (splitNL_ne_nil cs)
      | cons l' ls' =>
        rw [hsp] at h
        rcases List.mem_cons.mp h with h | h
        · subst h
          intro hm
          rcases List.mem_cons.mp hm with hm | hm
          · exact hc hm.symm
          · exact ih (hsp ▸ List.mem_cons_self l' ls') hm
        · exact ih (hsp ▸ List.mem_cons_of_mem l' h)

/-- One step of the `re.findall(r'[\d.]+', s)` scanner: `cur` holds the
current run of number characters, reversed. -/
def flushTok : Option (List Char) → List (List Char)
  | none => []
  | some r => [r.reverse]

def tokensAux : Option (List Char) → List Char → List (List Char)
  | cur, [] => flushTok cur
  | cur, c :: cs =>
    if isNumChar c then tokensAux (some (c :: cur.getD [])) cs
    else flushTok cur ++ tokensAux none cs

/-- `re.findall(r'[\d.]+', s)`: the maximal runs of digits and dots in `s`. -/
def numTokens (s : List Char) : List (List Char) := tokensAux none s

/-- A decimal number `m / 10 ^ e`, the exact value of a Python float parsed
from a digits-and-dot token (exact in the modelled regime, see header). -/
structure DecNum where
  m : ℕ
  e : ℕ
deriving DecidableEq

/-- The rational value of a `DecNum`. -/
def decVal (d : DecNum) : ℚ := (d.m : ℚ) / 10 ^ d.e

/-- Comparison of two decimal values (Python float `<=`). -/
def dLe (a b : DecNum) : Bool := a.m * 10 ^ b.e ≤ b.m * 10 ^ a.e

/-- Python `min(num1, num2)`: the first argument on ties. -/
def dMin (a b : DecNum) : DecNum := if dLe a b then a else b

/-- Python `max(num1, num2)`: the first argument on ties. -/
def dMax (a b : DecNum) : DecNum := if dLe b a then a else b

/-- Python `float(t)` for a token scanned by `[\d.]+`: accepts at most one
dot and at least one digit (else `ValueError`), yielding the exact decimal
value as mantissa and number of fractional digits. -/
def parseTok (t : List Char) : Option DecNum :=
  if t.all isNumChar = true ∧ t.count '.' ≤ 1 ∧ t.any Char.isDigit = true then
    some ⟨t.foldl (fun acc c => if c = '.' then acc else acc * 10 + (c.toNat - 48)) 0,
          ((t.dropWhile (fun c => c != '.')).drop 1).length⟩
  else none

def digitChar (n : ℕ) : Char :=
  match n % 10 with
  | 0 => '0' | 1 => '1' | 2 => '2' | 3 => '3' | 4 => '4'
  | 5 => '5' | 6 => '6' | 7 => '7' | 8 => '8' | _ => '9'

/-- Decimal digits of `n`, most significant first; fuel-driven so that it
reduces definitionally (the fuel `n + 1` always suffices). -/
def natDigitsAux : ℕ → ℕ → List Char
  | 0, _ => []
  | fuel + 1, n => if n < 10 then [digitChar n] else natDigitsAux fuel (n / 10) ++ [digitChar n]

def natDigits (n : ℕ) : List Char := natDigitsAux (n + 1) n

/-- Drop trailing zero fractional digits: `1.10` and `1.1` are the same
Python float and print the same way. -/
def canonDec : ℕ → ℕ → DecNum
  | m, 0 => ⟨m, 0⟩
  | m, e + 1 => if m % 10 = 0 then canonDec (m / 10) e else ⟨m, e + 1⟩

/-- CPython `repr` / f-string of the float `m / 10 ^ e` (in the modelled
regime): shortest positional decimal, with `.0` appended to whole numbers. -/
def renderDec (d : DecNum) : List Char :=
  let c := canonDec d.m d.e
  if c.e = 0 then natDigits c.m ++ ('.' :: '0' :: [])
  else
    natDigits (c.m / 10 ^ c.e) ++ '.' ::
      (List.replicate (c.e - (natDigits (c.m % 10 ^ c.e)).length) '0' ++
        natDigits (c.m % 10 ^ c.e))

/-- `sort_price_range` (llm_processor.py, lines 23-42): scan for number
tokens; if exactly two and both parse as floats, print `min - max`;
otherwise (wrong count, or `float()` raised and the bare `except` fired)
return the input string unchanged. -/
def sortPriceRange (s : List Char) : List Char :=
  match numTokens s with
  | [t1, t2] =>
    match parseTok t1, parseTok t2 with
    | some d1, some d2 =>
      renderDec (dMin d1 d2) ++ (" - ").data ++ renderDec (dMax d1 d2)
    | _, _ => s
  | _ => s

/-- One line of `format_final_response` (llm_processor.py, lines 56-63):
an `Entry:` line containing `\x22 - \x22` has its range part stripped, sorted and
re-prefixed; every other line passes through unchanged. -/
def entryPfx (l : List Char) : List Char :=
  l.takeWhile (fun c => c != ':') ++ (": ").data

def formatLine (l : List Char) : List Char :=
  if ("Entry:").data.isPrefixOf l && hasInfixL (" - ").data l then
    entryPfx l ++ sortPriceRange (pyStrip (l.drop (entryPfx l).length))
  else l

/-- `format_final_response` (llm_processor.py, lines 44-65). -/
def formatFinalResponseL (s : List Char) : List Char :=
  joinNL ((splitNL s).map formatLine)

/-- `format_final_response` on Lean strings. -/
def formatFinalResponse (s : String) : String := ⟨formatFinalResponseL s.data⟩

/-- `Char` with code 39 (the ASCII apostrophe used in Python error text). -/
def aposChar : Char := Char.ofNat 39

/-- The reason produced when `sections.index('FORMAT:')` raises `ValueError`
and the outer `except` of `process_with_llm` turns it into
`f"Error processing message: {str(e)}"`. -/
def errFormatMsg : List Char :=
  ("Error processing message: ").data ++ aposChar :: ("FORMAT:").data ++
    aposChar :: (" is not in list").data

/-- `sections = response.text.strip().split('\n')` (llm_processor.py, 137). -/
def sectionsOf (t : List Char) : List (List Char) := splitNL (pyStrip t)

/-- `valid_line = next((line for line in sections if line.startswith('VALID:')), '')`. -/
def validLineOf (t : List Char) : List Char :=
  ((sectionsOf t).find? (fun l => ("VALID:").data.isPrefixOf l)).getD []

/-- `is_valid = 'true' in valid_line.lower()`. -/
def isValidOf (t : List Char) : Bool :=
  hasInfixL ("true").data (pyLower (validLineOf t))

/-- `reason = reason_line.split(':', 1)[1].strip() if reason_line else None`. -/
def reasonOf (t : List Char) : Option (List Char) :=
  match (sectionsOf t).find? (fun l => ("REASON:").data.isPrefixOf l) with
  | none => none
  | some rl => some (pyStrip ((rl.dropWhile (fun c => c != ':')).drop 1))

/-- `sections.index('FORMAT:')`, as an `Option` (the `ValueError` on a
missing marker is handled in `processWithLlmL`). -/
def fmtIdxOf (t : List Char) : Option ℕ :=
  (sectionsOf t).findIdx? (fun l => l == ("FORMAT:").data)

/-- `format_section = '\n'.join(sections[sections.index('FORMAT:') + 1:]).strip()`. -/
def fmtSectionOf (t : List Char) (i : ℕ) : List Char :=
  pyStrip (joinNL ((sectionsOf t).drop (i + 1)))

/-- `process_with_llm` (llm_processor.py, lines 130-160), parameterised by
the text the external generation call returned.  The components are
`(is_valid, reason, formatted_message)`.  The `ValueError` raised by
`sections.index` when no line equals `FORMAT:` is caught by the function's
outer `except` and becomes the `errFormatMsg` reason. -/
def processWithLlmL (t : List Char) : Bool × Option (List Char) × Option (List Char) :=
  if t = [] then (false, some ("Empty response from LLM").data, none)
  else if isValidOf t = false then (false, reasonOf t, none)
  else
    match fmtIdxOf t with
    | none => (false, some errFormatMsg, none)
    | some i =>
      if fmtSectionOf t i = [] ∨ fmtSectionOf t i = ("None").data then
        (false, some ("Failed to format message").data, none)
      else (true, none, some (formatFinalResponseL (fmtSectionOf t i)))

/-- `process_with_llm` on Lean strings. -/
def processWithLlm (s : String) : Bool × Option String × Option String :=
  let r := processWithLlmL s.data
  (r.1, r.2.1.map String.mk, r.2.2.map String.mk)

/-- Which branch of `message_handler` (forwarder.py, lines 47-66) a
normalizer result selects: drop, send the formatted text, or forward the
original (`if formatted_message:` is Python-falsy for `None` and `""`). -/
inductive RelayBranch where
  | skip
  | sendFormatted
  | forwardOriginal
deriving DecidableEq

def relayBranch (r : Bool × Option (List Char) × Option (List Char)) : RelayBranch :=
  if r.1 = false then .skip
  else
    match r.2.2 with
    | some m => if m = [] then .forwardOriginal else .sendFormatted
    | none => .forwardOriginal

/-- Observable actions of one run of `message_handler` (forwarder.py). -/
inductive RelayAct where
  | logReceived
  | logSkipEmpty
  | logSkipInvalid
  | sendFormatted (m : List Char)
  | logSuccess
  | logWarnNoFormat
  | forwardNoFormat
  | logError
  | fallbackForward
  | logFallbackDone
  | logFallbackFailed
deriving DecidableEq

/-- Environment of one `message_handler` invocation: the inbound text, the
external generation result for it, and which of the awaited transport calls
raise. -/
structure RelayEnv where
  msgText : List Char
  llmResponse : List Char
  getChatFails : Bool
  sendFails : Bool
  forwardFails : Bool
  fallbackFails : Bool

/-- The `try:` body of `message_handler` (forwarder.py, lines 33-67):
`.ok` is a normal return, `.error` an exception escaping to the handler's
`except` clause; either carries the actions performed so far (a raising
call is recorded as an attempt). -/
def relayTryBody (env : RelayEnv) : Except (List RelayAct) (List RelayAct) :=
  if env.getChatFails then .error [] else
  if env.msgText = [] then .ok [.logReceived, .logSkipEmpty] else
  if (processWithLlmL env.llmResponse).1 = false then
    .ok [.logReceived, .logSkipInvalid] else
  match (processWithLlmL env.llmResponse).2.2 with
  | some m =>
    if m ≠ [] then
      if env.sendFails then .error [.logReceived, .sendFormatted m]
      else .ok [.logReceived, .sendFormatted m, .logSuccess]
    else
      if env.forwardFails then .error [.logReceived, .logWarnNoFormat, .forwardNoFormat]
      else .ok [.logReceived, .logWarnNoFormat, .forwardNoFormat]
  | none =>
    if env.forwardFails then .error [.logReceived, .logWarnNoFormat, .forwardNoFormat]
    else .ok [.logReceived, .logWarnNoFormat, .forwardNoFormat]

/-- `message_handler` (forwarder.py, lines 27-76): on an exception from the
body, log it, attempt one fallback forward of the original message, and on
a second failure only log.  Total: no exception propagates. -/
def messageHandler (env : RelayEnv) : List RelayAct :=
  match relayTryBody env with
  | .ok acts => acts
  | .error acts =>
    acts ++ [.logError, .fallbackForward] ++
      (if env.fallbackFails then [.logFallbackFailed] else [.logFallbackDone])

theorem dLe_iff (a b : DecNum) : dLe a b = true ↔ decVal a ≤ decVal b := by
  unfold dLe decVal
  rw [decide_eq_true_iff, div_le_div_iff₀ (by positivity) (by positivity)]
  exact_mod_cast Iff.rfl

theorem decVal_dMin_le_dMax (a b : DecNum) :
    decVal (dMin a b) ≤ decVal (dMax a b) := by
  unfold dMin dMax
  by_cases h : dLe a b = true
  · rw [if_pos h]
    by_cases h2 : dLe b a = true
    · rw [if_pos h2]
    · rw [if_neg h2]; exact (dLe_iff a b).mp h
  · rw [if_neg h]
    have hba : decVal b ≤ decVal a :=
      le_of_not_le (fun hc => h ((dLe_iff a b).mpr hc))
    rw [if_pos ((dLe_iff b a).mpr hba)]
    exact hba

theorem isPyWs_not_num {c : Char} (h : isPyWs c = true) : isNumChar c = false := by
  have h' : ((c = ' ' ∨ c = '\t') ∨ c = '\r') ∨ c = '\n' := by
    simpa [isPyWs, Char.isWhitespace] using h
  rcases h' with ((h' | h') | h') | h' <;> subst h' <;> decide

theorem tokensAux_append_not_num {c : Char} (hc : isNumChar c = false) :
    ∀ (l : List Char) (cur : Option (List Char)),
      tokensAux cur (l ++ [c]) = tokensAux cur l := by
  intro l
  induction l with
  | nil => intro cur; simp [tokensAux, hc, flushTok]
  | cons d l ih =>
    intro cur
    simp only [List.cons_append, tokensAux]
    cases hd : isNumChar d <;> simp [hd, ih]

theorem tokensAux_append_suffix :
    ∀ {suf : List Char}, (∀ c ∈ suf, isNumChar c = false) →
      ∀ (l : List Char) (cur : Option (List Char)),
        tokensAux cur (l ++ suf) = tokensAux cur l := by
  intro suf
  induction suf with
  | nil => intro _ l cur; rw [List.append_nil]
  | cons c suf ih =>
    intro hs l cur
    have : l ++ c :: suf = (l ++ [c]) ++ suf := by simp
    rw [this, ih (fun x hx => hs x (List.mem_cons_of_mem c hx)) (l ++ [c]) cur,
      tokensAux_append_not_num (hs c (List.mem_cons_self c suf)) l cur]

theorem tokensAux_dropWhile_ws (l : List Char) :
    tokensAux none (l.dropWhile isPyWs) = tokensAux none l := by
  induction l with
  | nil => rfl
  | cons c cs ih =>
    cases hc : isPyWs c
    · simp [List.dropWhile_cons, hc]
    · have hn := isPyWs_not_num hc
      simp [List.dropWhile_cons, hc, tokensAux, hn, flushTok, ih]

theorem pyStrip_decomp (l : List Char) :
    ∃ suf, l.dropWhile isPyWs = pyStrip l ++ suf ∧ ∀ c ∈ suf, isPyWs c = true := by
  refine ⟨((l.dropWhile isPyWs).reverse.takeWhile isPyWs).reverse, ?_, ?_⟩
  · unfold pyStrip
    conv_lhs => rw [← List.reverse_reverse (l.dropWhile isPyWs),
      ← List.takeWhile_append_dropWhile (p := isPyWs) (l := (l.dropWhile isPyWs).reverse)]
    rw [List.reverse_append]
  · intro c hc
    rw [List.mem_reverse] at hc
    exact List.mem_takeWhile_imp hc

theorem numTokens_pyStrip (l : List Char) : numTokens (pyStrip l) = numTokens l := by
  obtain ⟨suf, hdec, hws⟩ := pyStrip_decomp l
  have h1 : tokensAux none (l.dropWhile isPyWs) = tokensAux none l :=
    tokensAux_dropWhile_ws l
  have h2 : tokensAux none (pyStrip l ++ suf) = tokensAux none (pyStrip l) :=
    tokensAux_append_suffix (fun c hc => isPyWs_not_num (hws c hc)) _ none
  unfold numTokens
  rw [← h1, hdec, h2]

theorem digitChar_ne_nl (n : ℕ) : digitChar n ≠ '\n' := by
  unfold digitChar
  split <;> decide

theorem mem_natDigitsAux_ne_nl :
    ∀ (f n : ℕ) (c : Char), c ∈ natDigitsAux f n → c ≠ '\n' := by
  intro f
  induction f with
  | zero => intro n c hc; simp [natDigitsAux] at hc
  | succ f ih =>
    intro n c hc
    simp only [natDigitsAux] at hc
    split at hc
    · rw [List.mem_singleton] at hc; subst hc; exact digitChar_ne_nl n
    · rcases List.mem_append.mp hc with h | h
      · exact ih _ _ h
      · rw [List.mem_singleton] at h; subst h; exact digitChar_ne_nl n

theorem mem_natDigits_ne_nl {n : ℕ} {c : Char} (h : c ∈ natDigits n) : c ≠ '\n' :=
  mem_natDigitsAux_ne_nl _ _ _ h

theorem mem_renderDec_ne_nl {d : DecNum} {c : Char} (h : c ∈ renderDec d) :
    c ≠ '\n' := by
  simp only [renderDec] at h
  split at h
  · rcases List.mem_append.mp h with h | h
    · exact mem_natDigits_ne_nl h
    · rcases List.mem_cons.mp h with h | h
      · subst h; decide
      · rw [List.mem_singleton] at h; subst h; decide
  · rcases List.mem_append.mp h with h | h
    · exact mem_natDigits_ne_nl h
    · rcases List.mem_cons.mp h with h | h
      · subst h; decide
      · rcases List.mem_append.mp h with h | h
        · rw [List.eq_of_mem_replicate h]; decide
        · exact mem_natDigits_ne_nl h

theorem sortPriceRange_no_nl {s : List Char} (hs : '\n' ∉ s) :
    '\n' ∉ sortPriceRange s := by
  unfold sortPriceRange
  split
  · split
    · intro hmem
      rcases List.mem_append.mp hmem with h | h
      · rcases List.mem_append.mp h with h | h
        · exact mem_renderDec_ne_nl h rfl
        · revert h; decide
      · exact mem_renderDec_ne_nl h rfl
    · exact hs
  · exact hs

theorem mem_pyStrip {l : List Char} {c : Char} (h : c ∈ pyStrip l) : c ∈ l := by
  unfold pyStrip at h
  rw [List.mem_reverse] at h
  have h2 := (List.dropWhile_sublist _).subset h
  rw [List.mem_reverse] at h2
  exact (List.dropWhile_sublist _).subset h2

theorem formatLine_no_nl {l : List Char} (hl : '\n' ∉ l) : '\n' ∉ formatLine l := by
  unfold formatLine
  split
  · intro hmem
    rcases List.mem_append.mp hmem with h | h
    · unfold entryPfx at h
      rcases List.mem_append.mp h with h | h
      · exact hl ((List.takeWhile_sublist _).subset h)
      · revert h; decide
    · have hs : '\n' ∉ pyStrip (l.drop (entryPfx l).length) :=
        fun hm => hl ((List.drop_sublist _ _).subset (mem_pyStrip hm))
      exact sortPriceRange_no_nl hs h
  · exact hl

theorem formatLine_ne_nil {l : List Char} (hl : l ≠ []) : formatLine l ≠ [] := by
  unfold formatLine
  split
  · intro h
    rcases List.append_eq_nil.mp h with ⟨h1, -⟩
    unfold entryPfx at h1
    rcases List.append_eq_nil.mp h1 with ⟨-, h2⟩
    exact absurd h2 (by decide)
  · exact hl

theorem splitNL_formatFinalResponseL (s : List Char) :
    splitNL (formatFinalResponseL s) = (splitNL s).map formatLine := by
  unfold formatFinalResponseL
  refine splitNL_joinNL ?_ ?_
  · intro h
    rw [List.map_eq_nil_iff] at h
    exact splitNL_ne_nil s h
  · intro x hx
    rw [List.mem_map] at hx
    obtain ⟨l, hl, rfl⟩ := hx
    exact formatLine_no_nl (mem_splitNL_not_nl hl)

theorem formatFinalResponseL_ne_nil {s : List Char} (hs : s ≠ []) :
    formatFinalResponseL s ≠ [] := by
  unfold formatFinalResponseL
  cases hsp : splitNL s with
  | nil => exact absurd hsp (splitNL_ne_nil s)
  | cons l ls =>
    cases ls with
    | nil =>
      have hls : l = s := by
        have hj := joinNL_splitNL s
        rw [hsp] at hj
        simpa [joinNL] using hj
      simp only [List.map_cons, List.map_nil, joinNL]
      exact formatLine_ne_nil (hls ▸ hs)
    | cons l2 ls2 =>
      simp only [List.map_cons, joinNL]
      intro h
      rcases List.append_eq_nil.mp h with ⟨-, h2⟩
      exact List.cons_ne_nil _ _ h2

/-- Claim C8: on the format block `"Entry: 2934.88 - 2930.88\nStop Loss: 2926.88"`
the post-processing of `format_final_response` returns exactly
`"Entry: 2930.88 - 2934.88\nStop Loss: 2926.88"`. -/
theorem c8_end_to_end_example :
    formatFinalResponse "Entry: 2934.88 - 2930.88\nStop Loss: 2926.88" =
      "Entry: 2930.88 - 2934.88\nStop Loss: 2926.88" := by decide

/-- Claim C3, counterexample: normalizing the already-normalized-looking line
`"Entry: 1 - 2"` does not return it unchanged: Python's
`f"{float('1')} - {float('2')}"` prints `1.0 - 2.0`, so the output is
`"Entry: 1.0 - 2.0"`. -/
theorem c3_counterexample :
    formatFinalResponse "Entry: 1 - 2" = "Entry: 1.0 - 2.0" ∧
      ("Entry: 1.0 - 2.0" : String) ≠ "Entry: 1 - 2" := by decide

/-- Claim C3 (amended): re-normalizing a line in the normalizer's own output
format, `"Entry: 1.0 - 2.0"`, yields the same line (the fixed points are
the float-repr renderings, not integer-literal ranges like `"Entry: 1 - 2"`,
which normalizes to `"Entry: 1.0 - 2.0"`). -/
theorem c3_idempotent_on_normalized_line :
    formatFinalResponse "Entry: 1.0 - 2.0" = "Entry: 1.0 - 2.0" := by decide

/-- Claim C6: a format block with no line beginning with `Entry:` is returned
unchanged, line for line. -/
theorem c6_no_entry_line_unchanged (s : List Char)
    (h : ∀ l ∈ splitNL s, ("Entry:").data.isPrefixOf l = false) :
    formatFinalResponseL s = s := by
  unfold formatFinalResponseL
  have hmap : (splitNL s).map formatLine = (splitNL s).map id := by
    apply List.map_congr_left
    intro l hl
    unfold formatLine
    rw [h l hl]
    simp
  rw [hmap, List.map_id, joinNL_splitNL]

theorem c6_witness :
    (∀ l ∈ splitNL (("Stop Loss: 2926.88\nTake Profit: 2936.68").data),
      ("Entry:").data.isPrefixOf l = false) ∧
    formatFinalResponseL (("Stop Loss: 2926.88\nTake Profit: 2936.68").data) =
      ("Stop Loss: 2926.88\nTake Profit: 2936.68").data :=
  ⟨by decide, c6_no_entry_line_unchanged _ (by decide)⟩

/-- Claim C5: whenever `sort_price_range` rewrites a range (the scan found exactly
two tokens and both parsed as floats), the rewritten string is
`low - high` with `low <= high`. -/
theorem c5_rewritten_range_sorted (s t1 t2 : List Char) (d1 d2 : DecNum)
    (ht : numTokens s = [t1, t2])
    (h1 : parseTok t1 = some d1) (h2 : parseTok t2 = some d2) :
    ∃ a b : DecNum,
      sortPriceRange s = renderDec a ++ (" - ").data ++ renderDec b ∧
        decVal a ≤ decVal b := by
  refine ⟨dMin d1 d2, dMax d1 d2, ?_, decVal_dMin_le_dMax d1 d2⟩
  unfold sortPriceRange
  rw [ht]
  simp only [h1, h2]

theorem c5_witness :
    numTokens (("2 - 1").data) = [['2'], ['1']] ∧
    parseTok ['2'] = some ⟨2, 0⟩ ∧ parseTok ['1'] = some ⟨1, 0⟩ ∧
    ∃ a b : DecNum,
      sortPriceRange (("2 - 1").data) = renderDec a ++ (" - ").data ++ renderDec b ∧
        decVal a ≤ decVal b :=
  ⟨by decide, by decide, by decide,
    c5_rewritten_range_sorted (("2 - 1").data) ['2'] ['1'] ⟨2, 0⟩ ⟨1, 0⟩
      (by decide) (by decide) (by decide)⟩

/-- Claim C1, counterexample: the number scanner `[\d.]+` ignores signs, so the
claim's "optionally signed" reading fails: for `a = -5`, `b = -3` the claimed
output is `Entry: -5 - -3` (`min`/`max` of the signed values), but the code
scans the unsigned tokens `5` and `3` and prints `Entry: 3.0 - 5.0`. -/
theorem c1_counterexample :
    formatFinalResponse "Entry: -5 - -3" = "Entry: 3.0 - 5.0" ∧
      ("Entry: 3.0 - 5.0" : String) ≠ "Entry: -5 - -3" := by decide

/-- Claim C1 (amended): for every input text, every line of the form
`"Entry: " ++ r` containing `" - "`, where the (sign-less) scan of `r`
yields exactly two tokens that both parse as floats, is rewritten in place
to `"Entry: "` followed by the float-repr renderings of the smaller and the
larger value in that order, the prefix preserved verbatim. -/
theorem c1_entry_range_rewritten (s : List Char) (i : ℕ)
    (l r t1 t2 : List Char) (d1 d2 : DecNum)
    (hl : (splitNL s)[i]? = some l)
    (hshape : l = ("Entry: ").data ++ r)
    (hdash : hasInfixL ((" - ").data) l = true)
    (ht : numTokens r = [t1, t2])
    (h1 : parseTok t1 = some d1) (h2 : parseTok t2 = some d2) :
    (splitNL (formatFinalResponseL s))[i]? =
      some (("Entry: ").data ++
        (renderDec (dMin d1 d2) ++ (" - ").data ++ renderDec (dMax d1 d2))) := by
  subst hshape
  rw [splitNL_formatFinalResponseL, List.getElem?_map, hl, Option.map_some']
  congr 1
  have hpre : (("Entry:").data.isPrefixOf (("Entry: ").data ++ r)) = true := rfl
  unfold formatLine
  rw [if_pos (by rw [hpre, hdash]; rfl)]
  have hpfx : entryPfx (("Entry: ").data ++ r) = ("Entry: ").data := rfl
  rw [hpfx, List.drop_left]
  congr 1
  unfold sortPriceRange
  rw [numTokens_pyStrip, ht]
  simp only [h1, h2]

theorem c1_witness :
    (splitNL (("Entry: 2 - 1").data))[0]? = some (("Entry: 2 - 1").data) ∧
    ("Entry: 2 - 1").data = ("Entry: ").data ++ ("2 - 1").data ∧
    hasInfixL ((" - ").data) (("Entry: 2 - 1").data) = true ∧
    numTokens (("2 - 1").data) = [['2'], ['1']] ∧
    (splitNL (formatFinalResponseL (("Entry: 2 - 1").data)))[0]? =
      some (("Entry: ").data ++
        (renderDec (dMin ⟨2, 0⟩ ⟨1, 0⟩) ++ (" - ").data ++
          renderDec (dMax ⟨2, 0⟩ ⟨1, 0⟩))) :=
  ⟨by decide, by decide, by decide, by decide,
    c1_entry_range_rewritten (("Entry: 2 - 1").data) 0 (("Entry: 2 - 1").data)
      (("2 - 1").data) ['2'] ['1'] ⟨2, 0⟩ ⟨1, 0⟩
      (by decide) (by decide) (by decide) (by decide) (by decide) (by decide)⟩

/-- Claim C4, counterexample: a line beginning `Entry:`, containing `" - "`, from
which the scan extracts no numeric token, is nevertheless modified: the code
re-assembles `prefix + price_range.strip()`, so the trailing space of
`"Entry: x - y "` is lost. -/
theorem c4_counterexample :
    numTokens (("Entry: x - y ").data) = [] ∧
    formatFinalResponse "Entry: x - y " = "Entry: x - y" ∧
      ("Entry: x - y" : String) ≠ "Entry: x - y " := by decide

/-- Claim C4 (amended): an `Entry: `-prefixed line whose remainder carries no
leading or trailing whitespace (`strip` leaves it unchanged), and whose scan
does not produce exactly two float-parsable tokens, passes through the
normalizer unmodified, and no error is raised (the model is total). -/
theorem c4_unparsed_entry_line_unchanged (s : List Char) (i : ℕ)
    (l r : List Char)
    (hl : (splitNL s)[i]? = some l)
    (hshape : l = ("Entry: ").data ++ r)
    (hstrip : pyStrip r = r)
    (hfail : ∀ (t1 t2 : List Char) (d1 d2 : DecNum),
      numTokens r = [t1, t2] → parseTok t1 = some d1 → parseTok t2 = some d2 →
        False) :
    (splitNL (formatFinalResponseL s))[i]? = some l := by
  subst hshape
  rw [splitNL_formatFinalResponseL, List.getElem?_map, hl, Option.map_some']
  congr 1
  unfold formatLine
  split
  · have hpfx : entryPfx (("Entry: ").data ++ r) = ("Entry: ").data := rfl
    rw [hpfx, List.drop_left, hstrip]
    congr 1
    unfold sortPriceRange
    rcases htok : numTokens r with - | ⟨t1, - | ⟨t2, - | ⟨t3, ts⟩⟩⟩
    · rfl
    · rfl
    · cases hp1 : parseTok t1 with
      | none => cases hp2 : parseTok t2 <;> simp only [hp1, hp2]
      | some d1 =>
        cases hp2 : parseTok t2 with
        | none => simp only [hp1, hp2]
        | some d2 => exact (hfail t1 t2 d1 d2 htok hp1 hp2).elim
    · rfl
  · rfl

theorem c4_witness :
    (splitNL (("Entry: a - b").data))[0]? = some (("Entry: a - b").data) ∧
    ("Entry: a - b").data = ("Entry: ").data ++ ("a - b").data ∧
    pyStrip (("a - b").data) = ("a - b").data ∧
    numTokens (("a - b").data) = [] ∧
    (splitNL (formatFinalResponseL (("Entry: a - b").data)))[0]? =
      some (("Entry: a - b").data) := by
  refine ⟨by decide, by decide, by decide, by decide, ?_⟩
  refine c4_unparsed_entry_line_unchanged (("Entry: a - b").data) 0
    (("Entry: a - b").data) (("a - b").data) (by decide) (by decide) (by decide) ?_
  intro t1 t2 d1 d2 ht _ _
  have h0 : numTokens (("a - b").data) = [] := by decide
  rw [h0] at ht
  exact List.noConfusion ht

/-- Claim C2, counterexample: a response whose validity line indicates true but
which contains no `FORMAT:` section at all does give `isValid=false`, but
its reason is the stringified `ValueError` from `sections.index('FORMAT:')`
caught by the outer `except`, not `"Failed to format message"`. -/
theorem c2_counterexample :
    isValidOf (("VALID: true\nREASON: Valid trading signal").data) = true ∧
    fmtIdxOf (("VALID: true\nREASON: Valid trading signal").data) = none ∧
    processWithLlmL (("VALID: true\nREASON: Valid trading signal").data) =
      (false, some errFormatMsg, none) ∧
    errFormatMsg ≠ ("Failed to format message").data := by decide

/-- Claim C2 (amended): when the validity line indicates true, a line equal to
`FORMAT:` is present, and the joined text after it strips to empty (or to
`None`), `process_with_llm` returns
`(false, "Failed to format message", none)`; with no `FORMAT:` line at all
the reason is the caught `ValueError` text instead (`errFormatMsg`). -/
theorem c2_empty_format_block (t : List Char) (i : ℕ)
    (hv : isValidOf t = true)
    (hi : fmtIdxOf t = some i)
    (he : fmtSectionOf t i = [] ∨ fmtSectionOf t i = ("None").data) :
    processWithLlmL t = (false, some (("Failed to format message").data), none) := by
  have ht : ¬ t = [] := by
    intro h
    subst h
    exact absurd hv (by decide)
  have hv' : ¬ isValidOf t = false := by simp [hv]
  unfold processWithLlmL
  rw [if_neg ht, if_neg hv', hi]
  exact if_pos he

theorem c2_witness :
    isValidOf (("VALID: true\nREASON: ok\nFORMAT:").data) = true ∧
    fmtIdxOf (("VALID: true\nREASON: ok\nFORMAT:").data) = some 2 ∧
    fmtSectionOf (("VALID: true\nREASON: ok\nFORMAT:").data) 2 = [] ∧
    processWithLlmL (("VALID: true\nREASON: ok\nFORMAT:").data) =
      (false, some (("Failed to format message").data), none) :=
  ⟨by decide, by decide, by decide,
    c2_empty_format_block (("VALID: true\nREASON: ok\nFORMAT:").data) 2
      (by decide) (by decide) (Or.inl (by decide))⟩

/-- Claim C7, counterexample: the code strips the whole response before splitting
it into lines, so a response whose only validity marker is indented —
no line of the response itself begins with `VALID:` — can still come back
`isValid=true`. -/
theorem c7_counterexample :
    (∀ l ∈ splitNL (("  VALID: true\nREASON: ok\nFORMAT:\nAsset: GOLD").data),
        ("VALID:").data.isPrefixOf l = false) ∧
    (processWithLlmL (("  VALID: true\nREASON: ok\nFORMAT:\nAsset: GOLD").data)).1 =
      true := by decide

/-- Claim C7 (amended): for every external response such that no line of its
whitespace-stripped text begins with `VALID:`, `process_with_llm` returns
`isValid=false`. -/
theorem c7_no_valid_line_invalid (t : List Char)
    (h : ∀ l ∈ splitNL (pyStrip t), ("VALID:").data.isPrefixOf l = false) :
    (processWithLlmL t).1 = false := by
  unfold processWithLlmL
  by_cases ht : t = []
  · rw [if_pos ht]
  · rw [if_neg ht]
    have hv : isValidOf t = false := by
      unfold isValidOf validLineOf sectionsOf
      have hfind :
          (splitNL (pyStrip t)).find? (fun l => ("VALID:").data.isPrefixOf l) =
            none := by
        rw [List.find?_eq_none]
        intro x hx
        simp [h x hx]
      rw [hfind]
      rfl
    rw [if_pos hv]

theorem c7_witness :
    (∀ l ∈ splitNL (pyStrip (("hello there").data)),
        ("VALID:").data.isPrefixOf l = false) ∧
    (processWithLlmL (("hello there").data)).1 = false :=
  ⟨by decide, c7_no_valid_line_invalid (("hello there").data) (by decide)⟩

/-- If `process_with_llm` reports valid, it took its final return: the
format section was present and non-empty. -/
theorem processWithLlmL_true_elim (t : List Char)
    (h : (processWithLlmL t).1 = true) :
    ∃ i, fmtIdxOf t = some i ∧
      ¬ (fmtSectionOf t i = [] ∨ fmtSectionOf t i = ("None").data) ∧
      processWithLlmL t =
        (true, none, some (formatFinalResponseL (fmtSectionOf t i))) := by
  by_cases h1 : t = []
  · rw [show processWithLlmL t = (false, some (("Empty response from LLM").data), none) from by
      unfold processWithLlmL; rw [if_pos h1]] at h
    simp at h
  · by_cases h2 : isValidOf t = false
    · rw [show processWithLlmL t = (false, reasonOf t, none) from by
        unfold processWithLlmL; rw [if_neg h1, if_pos h2]] at h
      simp at h
    · cases hfi : fmtIdxOf t with
      | none =>
        rw [show processWithLlmL t = (false, some errFormatMsg, none) from by
          unfold processWithLlmL; rw [if_neg h1, if_neg h2, hfi]] at h
        simp at h
      | some i =>
        by_cases hP : fmtSectionOf t i = [] ∨ fmtSectionOf t i = ("None").data
        · rw [show processWithLlmL t =
              (false, some (("Failed to format message").data), none) from by
            unfold processWithLlmL; rw [if_neg h1, if_neg h2, hfi]; exact if_pos hP] at h
          simp at h
        · exact ⟨i, rfl, hP, by
            unfold processWithLlmL; rw [if_neg h1, if_neg h2, hfi]; exact if_neg hP⟩

/-- Claim C10: whenever `process_with_llm` reports valid, the reason is `None`
and the formatted text is a non-empty string, so `message_handler`'s
"valid but formatting absent" branch (forward the original verbatim) is
unreachable for its results. -/
theorem c10_valid_implies_formatted (t : List Char)
    (h : (processWithLlmL t).1 = true) :
    (processWithLlmL t).2.1 = none ∧
      (∃ m, (processWithLlmL t).2.2 = some m ∧ m ≠ []) ∧
      relayBranch (processWithLlmL t) ≠ RelayBranch.forwardOriginal := by
  obtain ⟨i, hfi, hP, heq⟩ := processWithLlmL_true_elim t h
  have hne : formatFinalResponseL (fmtSectionOf t i) ≠ [] :=
    formatFinalResponseL_ne_nil (fun hnil => hP (Or.inl hnil))
  rw [heq]
  refine ⟨rfl, ⟨_, rfl, hne⟩, ?_⟩
  unfold relayBranch
  rw [if_neg (by decide : ¬ ((true : Bool) = false))]
  simp only [if_neg hne]
  decide

theorem c10_witness :
    (processWithLlmL (("VALID: true\nREASON: ok\nFORMAT:\nAsset: GOLD").data)).1 =
      true ∧
    ((processWithLlmL (("VALID: true\nREASON: ok\nFORMAT:\nAsset: GOLD").data)).2.1 =
        none ∧
      (∃ m,
        (processWithLlmL
              (("VALID: true\nREASON: ok\nFORMAT:\nAsset: GOLD").data)).2.2 =
            some m ∧ m ≠ []) ∧
      relayBranch
          (processWithLlmL (("VALID: true\nREASON: ok\nFORMAT:\nAsset: GOLD").data)) ≠
        RelayBranch.forwardOriginal) :=
  ⟨by decide,
    c10_valid_implies_formatted
      (("VALID: true\nREASON: ok\nFORMAT:\nAsset: GOLD").data) (by decide)⟩

/-- No fallback forward is recorded inside the `try:` body: the
`except`-clause fallback is the only site emitting `fallbackForward`. -/
theorem relayTryBody_error_no_fallback (env : RelayEnv) (acts : List RelayAct)
    (h : relayTryBody env = Except.error acts) :
    RelayAct.fallbackForward ∉ acts := by
  unfold relayTryBody at h
  repeat' split at h
  all_goals first
    | exact Except.noConfusion h
    | (rw [Except.error.injEq] at h; subst h; simp)

/-- Claim C9: whenever the handler body raises, `message_handler` logs the error
and attempts exactly one fallback forward of the original message; when the
fallback itself fails the trace ends with the failure log and nothing else
happens (and `messageHandler` still returns normally: it is a total
function, so no exception propagates). -/
theorem c9_fallback_on_exception (env : RelayEnv) (acts : List RelayAct)
    (h : relayTryBody env = Except.error acts) :
    messageHandler env =
      acts ++ [RelayAct.logError, RelayAct.fallbackForward] ++
        (if env.fallbackFails then [RelayAct.logFallbackFailed]
          else [RelayAct.logFallbackDone]) ∧
    (messageHandler env).count RelayAct.fallbackForward = 1 ∧
    (env.fallbackFails = true →
      messageHandler env =
        acts ++ [RelayAct.logError] ++
          [RelayAct.fallbackForward, RelayAct.logFallbackFailed]) := by
  have hmh : messageHandler env =
      acts ++ [RelayAct.logError, RelayAct.fallbackForward] ++
        (if env.fallbackFails then [RelayAct.logFallbackFailed]
          else [RelayAct.logFallbackDone]) := by
    unfold messageHandler
    rw [h]
  have hno := relayTryBody_error_no_fallback env acts h
  refine ⟨hmh, ?_, ?_⟩
  · rw [hmh]
    cases hf : env.fallbackFails <;>
      simp [List.count_append, List.count_cons, List.count_eq_zero.mpr hno]
  · intro hf
    rw [hmh, if_pos hf]
    simp

theorem c9_witness :
    relayTryBody
        ⟨("hi").data, ("VALID: true\nREASON: ok\nFORMAT:\nAsset: GOLD").data,
          false, true, false, true⟩ =
      Except.error
        [RelayAct.logReceived, RelayAct.sendFormatted (("Asset: GOLD").data)] ∧
    (messageHandler
          ⟨("hi").data, ("VALID: true\nREASON: ok\nFORMAT:\nAsset: GOLD").data,
            false, true, false, true⟩ =
        [RelayAct.logReceived, RelayAct.sendFormatted (("Asset: GOLD").data)] ++
          [RelayAct.logError, RelayAct.fallbackForward] ++
          (if (true : Bool) then [RelayAct.logFallbackFailed]
            else [RelayAct.logFallbackDone]) ∧
      (messageHandler
            ⟨("hi").data, ("VALID: true\nREASON: ok\nFORMAT:\nAsset: GOLD").data,
              false, true, false, true⟩).count
          RelayAct.fallbackForward = 1 ∧
      ((true : Bool) = true →
        messageHandler
            ⟨("hi").data, ("VALID: true\nREASON: ok\nFORMAT:\nAsset: GOLD").data,
              false, true, false, true⟩ =
          [RelayAct.logReceived, RelayAct.sendFormatted (("Asset: GOLD").data)] ++
            [RelayAct.logError] ++
            [RelayAct.fallbackForward, RelayAct.logFallbackFailed])) :=
  ⟨rfl,
    c9_fallback_on_exception
      ⟨("hi").data, ("VALID: true\nREASON: ok\nFORMAT:\nAsset: GOLD").data,
        false, true, false, true⟩
      [RelayAct.logReceived, RelayAct.sendFormatted (("Asset: GOLD").data)] rfl⟩
